import Mathlib

/-!
Verification of the `exceptiongroup` library core: the `ExceptionGroup` data
type (`__init__.py`), the recursive `split` partition algorithm, the
`HandlerChain` dispatcher and the `Catcher` scoped-catch guard (`_tools.py`).

The embedding is shallow: Python exception objects become values of the
inductive type `Exc`; a leaf exception is opaque except for its type identity
(`isinstance` is modelled by membership of a type tag in the leaf's list of
base-class tags), its string form, and the causal-metadata attributes
`__context__`, `__cause__`, `__suppress_context__`, `__traceback__`.
Context / cause / traceback values are never inspected by the library, only
copied around, so they are modelled as opaque `Option Nat` references.
-/

namespace ExcGroup

/-- The causal-metadata attributes every `BaseException` carries:
`__context__`, `__cause__`, `__suppress_context__`, `__traceback__`. -/
structure ExcMeta where
  context : Option Nat
  cause : Option Nat
  suppressContext : Bool
  traceback : Option Nat
deriving Repr, DecidableEq

/-- A Python exception value.  `leaf` is any `BaseException` that is not an
`ExceptionGroup`; `tys` lists the type tags the object is an `isinstance` of
(its class and all its base classes), `msg` is its `str()` form.
`group` is an `ExceptionGroup` with fields `message`, `exceptions`, `sources`
(from `ExceptionGroup.__init__`). -/
inductive Exc where
  | leaf (tys : List Nat) (msg : String) (meta : ExcMeta)
  | group (message : String) (exceptions : List Exc) (sources : List String) (meta : ExcMeta)
deriving Repr

/-- Type tags for the host exception classes that appear in the code. -/
def tyBaseException : Nat := 0

def tyException : Nat := 1

def tyValueError : Nat := 2

def tyRuntimeError : Nat := 3

def tyTypeError : Nat := 4

def tyAttributeError : Nat := 5

/-- Metadata of a freshly constructed exception: no context, no cause,
`__suppress_context__ = False`, no traceback. -/
def freshMeta : ExcMeta := ⟨none, none, false, none⟩

/-- A fresh `ValueError`-like leaf. -/
def vErr (msg : String) : Exc := .leaf [tyValueError, tyException, tyBaseException] msg freshMeta

/-- A fresh `RuntimeError`-like leaf. -/
def rErr (msg : String) : Exc := .leaf [tyRuntimeError, tyException, tyBaseException] msg freshMeta

/-- The metadata attributes of an exception value. -/
def Exc.meta : Exc → ExcMeta
  | .leaf _ _ m => m
  | .group _ _ _ m => m

/-- Assignment `e.__context__ = c`. -/
def Exc.setContext : Exc → Option Nat → Exc
  | .leaf tys msg m, c => .leaf tys msg { m with context := c }
  | .group message cs ss m, c => .group message cs ss { m with context := c }

/-- Assignment `e.__traceback__ = tb`. -/
def Exc.setTraceback : Exc → Option Nat → Exc
  | .leaf tys msg m, tb => .leaf tys msg { m with traceback := tb }
  | .group message cs ss m, tb => .group message cs ss { m with traceback := tb }

/-- `str(exc)`: for a single-argument `BaseException` this is its message. -/
def excStr : Exc → String
  | .leaf _ msg _ => msg
  | .group message _ _ _ => message

/-- Whether the value is an `ExceptionGroup` (`isinstance(exc, ExceptionGroup)`). -/
def Exc.isGroup : Exc → Bool
  | .leaf .. => false
  | .group .. => true

mutual

/-- Structural equality of exception values.  It stands in for the host's
`is` identity test at the single place the code performs one
(`handler_exc is caught` in `Catcher.__exit__`): in this pure embedding a
value returned unchanged is the same value. -/
def excEq : Exc → Exc → Bool
  | .leaf tys1 msg1 m1, .leaf tys2 msg2 m2 =>
      tys1 == tys2 && msg1 == msg2 && m1 == m2
  | .group msg1 cs1 ss1 m1, .group msg2 cs2 ss2 m2 =>
      msg1 == msg2 && excListEq cs1 cs2 && ss1 == ss2 && m1 == m2
  | .leaf .., .group .. => false
  | .group .., .leaf .. => false
termination_by structural a => a

/-- Structural equality of lists of exception values. -/
def excListEq : List Exc → List Exc → Bool
  | [], [] => true
  | c :: cs, d :: ds => excEq c d && excListEq cs ds
  | [], _ :: _ => false
  | _ :: _, [] => false
termination_by structural cs => cs

end


/-!  ## Decidable equality of exception values  -/

mutual

theorem excEq_iff (a b : Exc) : excEq a b = true ↔ a = b := by
  cases a with
  | leaf tys1 msg1 m1 =>
      cases b with
      | leaf tys2 msg2 m2 => simp [excEq, and_assoc]
      | group msg2 cs2 ss2 m2 => simp [excEq]
  | group msg1 cs1 ss1 m1 =>
      cases b with
      | leaf tys2 msg2 m2 => simp [excEq]
      | group msg2 cs2 ss2 m2 =>
          simp only [excEq, Bool.and_eq_true, beq_iff_eq, Exc.group.injEq,
            excListEq_iff cs1 cs2]
          tauto
termination_by structural a

theorem excListEq_iff (cs ds : List Exc) : excListEq cs ds = true ↔ cs = ds := by
  cases cs with
  | nil => cases ds <;> simp [excListEq]
  | cons c cs =>
      cases ds with
      | nil => simp [excListEq]
      | cons d ds =>
          simp only [excListEq, Bool.and_eq_true, excEq_iff c d, excListEq_iff cs ds,
            List.cons.injEq]
termination_by structural cs

end

instance : DecidableEq Exc := fun a b => decidable_of_iff (excEq a b = true) (excEq_iff a b)

theorem excEq_refl (a : Exc) : excEq a a = true := (excEq_iff a a).mpr rfl

instance : DecidableEq Exc := fun a b => decidable_of_iff (excEq a b = true) (excEq_iff a b)


/-!  ## `ExceptionGroup.__copy__` and the `split` algorithm (`_tools.py`)  -/

/-- `ExceptionGroup.__copy__`: a fresh group is built by the constructor from
the same `message` / `exceptions` / `sources` (fresh metadata), and then
`__traceback__`, `__context__` and `__cause__` are copied over one by one.
In the host runtime the `__cause__` property setter (`PyException_SetCause`)
also sets `__suppress_context__` to `True` unconditionally, so a copy always
carries `suppressContext = true`; `__suppress_context__` itself is never
copied.  On a non-group the function is not defined by the code; the
embedding returns the value unchanged (the library only copies groups). -/
def copyExc : Exc → Exc
  | .group message cs ss m =>
      .group message cs ss
        { context := m.context, cause := m.cause, suppressContext := true,
          traceback := m.traceback }
  | e => e

/-- Assignment `g.exceptions = cs` (plain attribute write, no validation). -/
def Exc.setExceptions : Exc → List Exc → Exc
  | .group message _ ss m, cs => .group message cs ss m
  | e, _ => e

/-- Assignment `g.sources = ss` (plain attribute write, no validation). -/
def Exc.setSources : Exc → List String → Exc
  | .group message cs _ m, ss => .group message cs ss m
  | e, _ => e

/-- The leaf test of `split`:
`isinstance(exc, exc_type) and (match is None or match(exc))`. -/
def leafMatches (excType : Nat) (mtch : Option (Exc → Bool)) (e : Exc) : Bool :=
  match e with
  | .leaf tys _ _ =>
      tys.contains excType &&
        (match mtch with
         | none => true
         | some f => f e)
  | .group .. => false

mutual

/-- The recursive body of `split` on an exception value (`_tools.py`,
`split`, lines 30-59).  A group is split structurally: each
`(child, source)` pair of `zip(exc.exceptions, exc.sources)` is split
recursively and the non-absent halves are collected into parallel
matched/unmatched lists.  `if matches and not rests` returns the original
object as the matched half; symmetrically for `rests and not matches`;
otherwise two copies of the group are produced (via `copy.copy`, then
overwriting `exceptions` and `sources`).  A leaf is matched as a whole by
`leafMatches` and returned unchanged on either side. -/
def splitExc (excType : Nat) (mtch : Option (Exc → Bool)) (e : Exc) :
    Option Exc × Option Exc :=
  match e with
  | .leaf tys msg m =>
      if leafMatches excType mtch (.leaf tys msg m) then
        (some (.leaf tys msg m), none)
      else
        (none, some (.leaf tys msg m))
  | .group message excs sources m =>
      let r := splitChildren excType mtch excs sources
      if !r.1.isEmpty && r.2.2.1.isEmpty then
        (some (.group message excs sources m), none)
      else if !r.2.2.1.isEmpty && r.1.isEmpty then
        (none, some (.group message excs sources m))
      else
        ((copyExc (.group message excs sources m)).setExceptions r.1 |>.setSources r.2.1 |> some,
         (copyExc (.group message excs sources m)).setExceptions r.2.2.1 |>.setSources r.2.2.2 |> some)
termination_by structural e

/-- The loop `for subexc, note in zip(exc.exceptions, exc.sources)` of
`split`: returns `(matches, match_notes, rests, rest_notes)`.  Like `zip`,
it stops at the shorter of the two lists. -/
def splitChildren (excType : Nat) (mtch : Option (Exc → Bool))
    (cs : List Exc) (ss : List String) :
    List Exc × List String × List Exc × List String :=
  match cs, ss with
  | [], _ => ([], [], [], [])
  | _ :: _, [] => ([], [], [], [])
  | c :: cs, note :: notes =>
      let (mo, ro) := splitExc excType mtch c
      let (ms, mns, rs, rns) := splitChildren excType mtch cs notes
      ((match mo with | some x => x :: ms | none => ms),
       (match mo with | some _ => note :: mns | none => mns),
       (match ro with | some x => x :: rs | none => rs),
       (match ro with | some _ => note :: rns | none => rns))
termination_by structural cs

end

/-- The `TypeError` that `split` raises when `exc` is not an instance of
`BaseException`. -/
def splitTypeError : Exc :=
  .leaf [tyTypeError, tyException, tyBaseException]
    "Argument exc should be an instance of BaseException." freshMeta

/-- Top-level `split(exc_type, exc, *, match=None)`.  The argument domain is
`Option Exc`: `none` stands for `None` or any other Python value that is not
a `BaseException` instance, for which the `isinstance` guard raises the
`TypeError` above before any splitting happens. -/
def split (excType : Nat) (mtch : Option (Exc → Bool)) (exc : Option Exc) :
    Except Exc (Option Exc × Option Exc) :=
  match exc with
  | none => .error splitTypeError
  | some e => .ok (splitExc excType mtch e)

/-- The spec's ValidationError taxonomy (spec section 7): the host
`TypeError` / `ValueError` raised on malformed inputs. -/
def isValidationError (e : Exc) : Bool :=
  match e with
  | .leaf tys _ _ => tys.contains tyTypeError || tys.contains tyValueError
  | .group .. => false

/-!  ## Leaves, well-formedness  -/

mutual

/-- The leaf exceptions reachable inside an exception value: a non-group is
its own single leaf, a group contributes the leaves of all its children in
order. -/
def leaves : Exc → List Exc
  | .leaf tys msg m => [.leaf tys msg m]
  | .group _ cs _ _ => leavesList cs
termination_by structural e => e

/-- Concatenated leaves of a list of exception values. -/
def leavesList : List Exc → List Exc
  | [] => []
  | c :: cs => leaves c ++ leavesList cs
termination_by structural cs => cs

end

/-- Leaves of an optional exception value (`None` has no leaves). -/
def leavesOpt : Option Exc → List Exc
  | none => []
  | some e => leaves e

mutual

/-- The `ExceptionGroup` construction invariant, recursively: every group
has as many `sources` as `exceptions` (`ExceptionGroup.__init__` raises a
`ValueError` otherwise). -/
def wellFormed : Exc → Bool
  | .leaf .. => true
  | .group _ cs ss _ => cs.length == ss.length && childrenWF cs
termination_by structural e => e

/-- `wellFormed` on every element of a list. -/
def childrenWF : List Exc → Bool
  | [] => true
  | c :: cs => wellFormed c && childrenWF cs
termination_by structural cs => cs

end

/-- `wellFormed` on an optional exception value. -/
def wfOpt : Option Exc → Bool
  | none => true
  | some e => wellFormed e

/-!  ## `HandlerChain` (`_tools.py`)  -/

/-- What a Python handler call does: return normally, or raise an
exception. -/
inductive HOutcome where
  | normal
  | raised (e : Exc)

/-- A handler function. -/
abbrev Handler := Exc → HOutcome

/-- One entry of `HandlerChain.handlers`: the `exc_type` key and the stored
`(match, fn)` pair. -/
abbrev ChainEntry := Nat × Option (Exc → Bool) × Handler

/-- `HandlerChain.handle(exc_type, match)` applied to a function `fn`
performs `self.handlers[exc_type] = (match, fn)` on an `OrderedDict`,
modelled as an association list in insertion order: assigning to an
existing key replaces its value without moving the entry, assigning to a
new key appends at the end. -/
def handlersSet (hs : List ChainEntry) (excType : Nat)
    (mtch : Option (Exc → Bool)) (fn : Handler) : List ChainEntry :=
  if hs.any (fun p => p.1 == excType) then
    hs.map (fun p => if p.1 == excType then (excType, mtch, fn) else p)
  else
    hs ++ [(excType, mtch, fn)]

/-- What `__exit__` does, seen from the `with` statement: either it returns
(with a truthiness used to decide suppression) or it raises an exception of
its own. -/
inductive ExitResult where
  | returned (suppress : Bool)
  | raised (e : Exc)
deriving Repr, DecidableEq

/-- The exception escaping a `with` block whose body raised `exc` (`none`
for a normal exit), given the result of `__exit__`: an exception raised by
`__exit__` itself replaces `exc`; a falsy return value re-raises `exc`; a
truthy return value suppresses it. -/
def withObserved (exc : Option Exc) : ExitResult → Option Exc
  | .raised e => some e
  | .returned true => none
  | .returned false => exc

/-- The `ExceptionGroup(message, exceptions, sources)` constructor at the
internal call sites (both pass lists of equal length, so the constructor's
validation cannot fire there): a fresh group with fresh metadata. -/
def mkGroup (message : String) (excs : List Exc) (srcs : List String) : Exc :=
  .group message excs srcs freshMeta

/-- The loop of `HandlerChain.__exit__` over `self.handlers.items()`, with
the running `rest` and the accumulated `re_raised` list.  For each entry, if
`rest` is exhausted the loop breaks; otherwise `caught, rest = split(...)`
and, when something was caught, the handler runs on it; if the handler
raises `e`, the code overwrites `e.__context__` and `e.__traceback__` with
the values saved from `caught` before the call and appends `e` to
`re_raised`.  Returns the final `(rest, re_raised)`. -/
def chainLoop : List ChainEntry → Option Exc → List Exc → Option Exc × List Exc
  | [], rest, acc => (rest, acc)
  | (excType, mtch, handle) :: hs, rest, acc =>
      match rest with
      | none => (none, acc)
      | some r =>
          match splitExc excType mtch r with
          | (none, rest2) => chainLoop hs rest2 acc
          | (some caught, rest2) =>
              let savedContext := caught.meta.context
              let savedTraceback := caught.meta.traceback
              match handle caught with
              | .normal => chainLoop hs rest2 acc
              | .raised e =>
                  chainLoop hs rest2
                    (acc ++ [(e.setContext savedContext).setTraceback savedTraceback])

/-- `HandlerChain.__exit__(exc_type, exc, tb)`.  After the loop, a
non-absent `rest` is appended to `re_raised`; if `re_raised` is non-empty a
fresh group with the fixed message is built over it, with `str(e)` of each
element as its source, its `__context__` is explicitly cleared and it is
raised.  Otherwise `__exit__` falls off its end, i.e. returns `None` — a
falsy value. -/
def chainExit (hs : List ChainEntry) (exc : Option Exc) : ExitResult :=
  let lr := chainLoop hs exc []
  let reRaised := lr.2 ++ (match lr.1 with | some r => [r] | none => [])
  if !reRaised.isEmpty then
    .raised ((mkGroup "Errors after handled by handler(s)." reRaised
        (reRaised.map excStr)).setContext none)
  else
    .returned false

/-!  ## `Catcher` (`_tools.py`)  -/

/-- `Catcher.__init__(exc_type, handler, match)` state.  The Python
attribute `_match` is called `mtch` here (`match` is reserved in Lean). -/
structure Catcher where
  excType : Nat
  handler : Handler
  mtch : Option (Exc → Bool)

/-- `catch(exc_type, handler, match=None)`. -/
def catchCM (excType : Nat) (handler : Handler) (mtch : Option (Exc → Bool)) :
    Catcher :=
  ⟨excType, handler, mtch⟩

/-- The `AttributeError` the host raises for `None.__context__` — the
attribute access `exceptiongroup_catch_exc.__context__` in
`Catcher.__exit__` when `exceptiongroup_catch_exc` is `None`. -/
def noneContextError : Exc :=
  .leaf [tyAttributeError, tyException, tyBaseException]
    "NoneType object has no attribute context" freshMeta

/-- The tail of `Catcher.__exit__`: `saved_context` is read from the result,
the result is raised, and the `finally` block writes `saved_context` back,
so the escaping exception keeps exactly the `__context__` it already
carried. -/
def catcherRaise (result : Exc) : ExitResult :=
  let savedContext := result.meta.context
  .raised (result.setContext savedContext)

/-- `Catcher.__exit__(etype, exc, tb)`.  The body calls
`split(self._exc_type, exc, match=self._match)` unconditionally, so a
normal scope exit (`exc = None`) hits the `isinstance` guard of `split` and
its `TypeError` escapes.  When nothing is caught, `__exit__` returns
`False`.  Otherwise the handler runs on `caught` (the save/restore of
`caught.__context__` / `caught.__traceback__` around it restores exactly
the saved values and is a net no-op on the value level):
if the handler raises the very object it was given, `__exit__` returns
`False` (the original exception propagates); if it raises a different
exception, that exception — or, when `rest` is present, a fresh two-child
group over it and `rest` — is raised; if it returns normally the result is
`rest`, and when `rest` is absent the code dereferences
`None.__context__`, so the host `AttributeError` escapes instead.
The group message is `"caught {}".format(self._exc_type.__class__.__name__)`
and `self._exc_type.__class__.__name__` is the metaclass name, the literal
string `"type"`, for every class argument. -/
def catcherExit (c : Catcher) (exc : Option Exc) : ExitResult :=
  match split c.excType c.mtch exc with
  | .error te => .raised te
  | .ok (none, _) => .returned false
  | .ok (some caught, rest) =>
      match c.handler caught with
      | .raised handlerExc =>
          if excEq handlerExc caught then
            .returned false
          else
            match rest with
            | none => catcherRaise handlerExc
            | some r =>
                catcherRaise (mkGroup "caught type" [handlerExc, r]
                  ["exception raised by handler", "uncaught exceptions"])
      | .normal =>
          match rest with
          | none => .raised noneContextError
          | some r => catcherRaise r

/-- A handler that returns normally (like the repo test's
`value_error_handler`). -/
def hNormal : Handler := fun _ => HOutcome.normal

/-- A handler that re-raises exactly the object it was given (a bare
`raise` in the handler body). -/
def hReRaise : Handler := fun e => HOutcome.raised e

/-- A handler that raises a fresh `RuntimeError` (like the repo test's
`value_error_handler2`). -/
def hRaiseRuntime : Handler := fun _ => HOutcome.raised (rErr "This is a runtime error")

/-!  ## Soundness of `split`  -/

/-- Soundness of `splitExc` on well-formed inputs, proved by the mutual
functional induction of `splitExc` / `splitChildren`: the matched half's
leaves are exactly the leaves satisfying the matcher, in order; the
unmatched half's leaves are exactly the others; both halves are again
well-formed. -/
theorem splitExc_sound (t : Nat) (m : Option (Exc → Bool)) (e0 : Exc) :
    wellFormed e0 = true →
      leavesOpt (splitExc t m e0).1 = (leaves e0).filter (leafMatches t m) ∧
      leavesOpt (splitExc t m e0).2 = (leaves e0).filter (fun l => !leafMatches t m l) ∧
      wfOpt (splitExc t m e0).1 = true ∧
      wfOpt (splitExc t m e0).2 = true := by
  refine splitExc.induct t m
    (fun e => wellFormed e = true →
      leavesOpt (splitExc t m e).1 = (leaves e).filter (leafMatches t m) ∧
      leavesOpt (splitExc t m e).2 = (leaves e).filter (fun l => !leafMatches t m l) ∧
      wfOpt (splitExc t m e).1 = true ∧
      wfOpt (splitExc t m e).2 = true)
    (fun cs ss => cs.length = ss.length → childrenWF cs = true →
      leavesList (splitChildren t m cs ss).1 = (leavesList cs).filter (leafMatches t m) ∧
      leavesList (splitChildren t m cs ss).2.2.1
        = (leavesList cs).filter (fun l => !leafMatches t m l) ∧
      (splitChildren t m cs ss).1.length = (splitChildren t m cs ss).2.1.length ∧
      (splitChildren t m cs ss).2.2.1.length = (splitChildren t m cs ss).2.2.2.length ∧
      childrenWF (splitChildren t m cs ss).1 = true ∧
      childrenWF (splitChildren t m cs ss).2.2.1 = true)
    ?_ ?_ ?_ ?_ ?_ ?_ ?_ ?_ e0
  · -- leaf, matched
    intro tys msg meta hm _
    simp [splitExc, hm, leaves, leavesOpt, wfOpt, wellFormed]
  · -- leaf, unmatched
    intro tys msg meta hm _
    simp [splitExc, hm, leaves, leavesOpt, wfOpt, wellFormed]
  · -- group, identity short-circuit on the matched side
    intro message cs ss meta r hb ih hwf
    simp only [wellFormed, Bool.and_eq_true, beq_iff_eq] at hwf
    obtain ⟨hlen, hcwf⟩ := hwf
    obtain ⟨hl1, hl2, _, _, _, _⟩ := ih hlen hcwf
    rw [Bool.and_eq_true, Bool.not_eq_true', List.isEmpty_iff] at hb
    obtain ⟨hm1, hr1⟩ := hb
    have hrest : (leavesList cs).filter (fun l => !leafMatches t m l) = [] := by
      rw [← hl2, hr1]; rfl
    have hall : ∀ l ∈ leavesList cs, leafMatches t m l = true := by
      intro l hl
      have := (List.filter_eq_nil_iff.mp hrest) l hl
      simpa using this
    have hself : (leavesList cs).filter (leafMatches t m) = leavesList cs :=
      List.filter_eq_self.mpr hall
    simp only [splitExc]
    rw [if_pos]
    · refine ⟨?_, ?_, ?_, ?_⟩
      · simp only [leavesOpt, leaves]
        exact hself.symm
      · simp only [leavesOpt, leaves]
        exact hrest.symm
      · simp [wfOpt, wellFormed, hlen, hcwf]
      · simp [wfOpt]
    · simp only [Bool.and_eq_true, Bool.not_eq_true', List.isEmpty_iff]
      exact ⟨by simpa [List.isEmpty_iff] using hm1, hr1⟩
  · -- group, identity short-circuit on the unmatched side
    intro message cs ss meta r hnb hb ih hwf
    simp only [wellFormed, Bool.and_eq_true, beq_iff_eq] at hwf
    obtain ⟨hlen, hcwf⟩ := hwf
    obtain ⟨hl1, hl2, _, _, _, _⟩ := ih hlen hcwf
    rw [Bool.and_eq_true, Bool.not_eq_true', List.isEmpty_iff] at hb
    obtain ⟨hm1, hr1⟩ := hb
    have hmatched : (leavesList cs).filter (leafMatches t m) = [] := by
      rw [← hl1, hr1]; rfl
    have hall : ∀ l ∈ leavesList cs, leafMatches t m l = false := by
      intro l hl
      have := (List.filter_eq_nil_iff.mp hmatched) l hl
      simpa using this
    have hself : (leavesList cs).filter (fun l => !leafMatches t m l) = leavesList cs := by
      refine List.filter_eq_self.mpr ?_
      intro a ha
      simp [hall a ha]
    simp only [splitExc]
    rw [if_neg, if_pos]
    · refine ⟨?_, ?_, ?_, ?_⟩
      · simp only [leavesOpt, leaves]
        exact hmatched.symm
      · simp only [leavesOpt, leaves]
        exact hself.symm
      · simp [wfOpt]
      · simp [wfOpt, wellFormed, hlen, hcwf]
    · simp only [Bool.and_eq_true, Bool.not_eq_true', List.isEmpty_iff]
      exact ⟨by simpa [List.isEmpty_iff] using hm1, hr1⟩
    · exact hnb
  · -- group, two copies
    intro message cs ss meta r hnb1 hnb2 ih hwf
    simp only [wellFormed, Bool.and_eq_true, beq_iff_eq] at hwf
    obtain ⟨hlen, hcwf⟩ := hwf
    obtain ⟨hl1, hl2, hlen1, hlen2, hwf1, hwf2⟩ := ih hlen hcwf
    simp only [splitExc]
    rw [if_neg hnb1, if_neg hnb2]
    refine ⟨?_, ?_, ?_, ?_⟩
    · simp only [leavesOpt, copyExc, Exc.setExceptions, Exc.setSources, leaves]
      exact hl1
    · simp only [leavesOpt, copyExc, Exc.setExceptions, Exc.setSources, leaves]
      exact hl2
    · simp only [wfOpt, copyExc, Exc.setExceptions, Exc.setSources, wellFormed,
        Bool.and_eq_true, beq_iff_eq]
      exact ⟨hlen1, hwf1⟩
    · simp only [wfOpt, copyExc, Exc.setExceptions, Exc.setSources, wellFormed,
        Bool.and_eq_true, beq_iff_eq]
      exact ⟨hlen2, hwf2⟩
  · -- children loop: empty child list
    intro ss _ _
    simp [splitChildren, leavesList, childrenWF]
  · -- children loop: children left but sources exhausted (impossible when lengths agree)
    intro c cs hlen _
    simp at hlen
  · -- children loop: cons / cons
    intro c cs note notes mo ro hsp ms mns rs rns hsc ih1 ih2 hlen hwf
    simp only [childrenWF, Bool.and_eq_true] at hwf
    obtain ⟨hwc, hwcs⟩ := hwf
    have hlen' : cs.length = notes.length := by simpa using hlen
    have h1 := ih1 hwc
    rw [hsp] at h1
    obtain ⟨hc1, hc2, hc3, hc4⟩ := h1
    have h2 := ih2 hlen' hwcs
    rw [hsc] at h2
    obtain ⟨hd1, hd2, hd3, hd4, hd5, hd6⟩ := h2
    simp only [splitChildren, hsp, hsc]
    cases mo <;> cases ro <;>
      simp_all [leavesOpt, leavesList, leaves, wfOpt, childrenWF, List.filter_append]

/-!  ## The claims  -/

/-- C1, counterexample: the concatenation of the matched result's leaves and
the unmatched result's leaves does not equal the leaves of the original in
general — when an unmatched leaf precedes a matched one the concatenation
reverses their original order. -/
theorem split_leaf_concat_cex :
    leavesOpt (splitExc tyRuntimeError none
        (Exc.group "Many Errors" [vErr "v", rErr "r"] ["v", "r"] freshMeta)).1 ++
      leavesOpt (splitExc tyRuntimeError none
        (Exc.group "Many Errors" [vErr "v", rErr "r"] ["v", "r"] freshMeta)).2 ≠
      leaves (Exc.group "Many Errors" [vErr "v", rErr "r"] ["v", "r"] freshMeta) := by
  decide

/-- C1 (amended): for every well-formed error value and every matcher,
every leaf of the matched result satisfies the matcher and every leaf of
the unmatched result fails it; the matched result's leaves are exactly the
leaves of the original that satisfy the matcher, with multiplicity and in
original relative order, and the unmatched result's leaves are exactly the
remaining ones — so the original leaf sequence is an order-preserving
interleaving of the two sides, not their concatenation. -/
theorem split_partitions_leaves (t : Nat) (m : Option (Exc → Bool)) (e : Exc)
    (hwf : wellFormed e = true) :
    (∀ l ∈ leavesOpt (splitExc t m e).1, leafMatches t m l = true) ∧
    (∀ l ∈ leavesOpt (splitExc t m e).2, leafMatches t m l = false) ∧
    leavesOpt (splitExc t m e).1 = (leaves e).filter (leafMatches t m) ∧
    leavesOpt (splitExc t m e).2 = (leaves e).filter (fun l => !leafMatches t m l) := by
  obtain ⟨h1, h2, _, _⟩ := splitExc_sound t m e hwf
  refine ⟨?_, ?_, h1, h2⟩
  · intro l hl
    rw [h1] at hl
    exact (List.mem_filter.mp hl).2
  · intro l hl
    rw [h2] at hl
    have := (List.mem_filter.mp hl).2
    simpa using this

/-- C1 witness: the partition property evaluated on a concrete two-leaf
group with one matching and one non-matching child. -/
theorem split_partitions_leaves_witness :
    wellFormed (Exc.group "Many Errors" [vErr "v", rErr "r"] ["v", "r"] freshMeta) = true ∧
    leavesOpt (splitExc tyRuntimeError none
        (Exc.group "Many Errors" [vErr "v", rErr "r"] ["v", "r"] freshMeta)).1 =
      (leaves (Exc.group "Many Errors" [vErr "v", rErr "r"] ["v", "r"] freshMeta)).filter
        (leafMatches tyRuntimeError none) :=
  ⟨by decide,
    (split_partitions_leaves tyRuntimeError none
      (Exc.group "Many Errors" [vErr "v", rErr "r"] ["v", "r"] freshMeta) (by decide)).2.2.1⟩

/-- C10: on a well-formed input, both results of `split` are again
well-formed — in particular every aggregate returned by `split`, original or
clone, has as many `sources` as `exceptions`, even though the clones are
built by plain attribute assignment that bypasses the constructor's length
validation. -/
theorem split_results_wellFormed (t : Nat) (m : Option (Exc → Bool)) (e : Exc)
    (hwf : wellFormed e = true) :
    wfOpt (splitExc t m e).1 = true ∧ wfOpt (splitExc t m e).2 = true :=
  ⟨(splitExc_sound t m e hwf).2.2.1, (splitExc_sound t m e hwf).2.2.2⟩

/-- C10 witness: well-formedness of both halves on a concrete mixed group
that takes the two-clone branch. -/
theorem split_results_wellFormed_witness :
    wellFormed (Exc.group "Many Errors" [rErr "a", vErr "b"] ["a", "b"] freshMeta) = true ∧
    wfOpt (splitExc tyRuntimeError none
        (Exc.group "Many Errors" [rErr "a", vErr "b"] ["a", "b"] freshMeta)).1 = true ∧
    wfOpt (splitExc tyRuntimeError none
        (Exc.group "Many Errors" [rErr "a", vErr "b"] ["a", "b"] freshMeta)).2 = true :=
  ⟨by decide,
    (split_results_wellFormed tyRuntimeError none
      (Exc.group "Many Errors" [rErr "a", vErr "b"] ["a", "b"] freshMeta) (by decide)).1,
    (split_results_wellFormed tyRuntimeError none
      (Exc.group "Many Errors" [rErr "a", vErr "b"] ["a", "b"] freshMeta) (by decide)).2⟩

/-- C9: calling `split` with an absent error value (or any argument that is
not a `BaseException` instance, which the embedding's `Option` domain maps
to `none`) fails immediately with the `isinstance` guard's `TypeError` — a
ValidationError in the spec's taxonomy — and returns no partial result. -/
theorem split_none_validation (t : Nat) (m : Option (Exc → Bool)) :
    split t m none = .error splitTypeError ∧ isValidationError splitTypeError = true :=
  ⟨rfl, by decide⟩

/-- C2, counterexample: on an aggregate with zero children both collected
lists are empty, and the code's `if matches and not rests` test is false
(an empty `matches` is falsy), so instead of the identity short-circuit
`(error, None)` the empty group is split into two fresh copies — both halves
are present and neither is the original object. -/
theorem split_empty_group_cex :
    splitExc tyRuntimeError none (Exc.group "Many Errors" [] [] freshMeta) ≠
        (some (Exc.group "Many Errors" [] [] freshMeta), none) ∧
      (splitExc tyRuntimeError none (Exc.group "Many Errors" [] [] freshMeta)).2 ≠ none ∧
      (splitExc tyRuntimeError none (Exc.group "Many Errors" [] [] freshMeta)).1 ≠ none := by
  decide

/-- C2 (amended): for an aggregate error, if recursively splitting the
children yields a non-empty matched list and an empty unmatched list then
`split` returns `(error, None)` with the matched half the original value
itself (the code returns the very object, so the embedding returns the
input unchanged), and symmetrically with the halves swapped; an aggregate
with zero children, however, yields two fresh copies with empty child lists
instead of an identity short-circuit. -/
theorem split_identity_shortcircuit (t : Nat) (m : Option (Exc → Bool))
    (message : String) (cs : List Exc) (ss : List String) (meta : ExcMeta) :
    ((splitChildren t m cs ss).1 ≠ [] ∧ (splitChildren t m cs ss).2.2.1 = [] →
      splitExc t m (.group message cs ss meta) =
        (some (.group message cs ss meta), none)) ∧
    ((splitChildren t m cs ss).2.2.1 ≠ [] ∧ (splitChildren t m cs ss).1 = [] →
      splitExc t m (.group message cs ss meta) =
        (none, some (.group message cs ss meta))) ∧
    (cs = [] →
      splitExc t m (.group message cs ss meta) =
        (some (.group message [] [] { meta with suppressContext := true }),
         some (.group message [] [] { meta with suppressContext := true }))) := by
  refine ⟨?_, ?_, ?_⟩
  · intro ⟨hm, hr⟩
    simp only [splitExc]
    rw [if_pos]
    simp only [Bool.and_eq_true, Bool.not_eq_true', List.isEmpty_iff]
    exact ⟨by simpa [List.isEmpty_iff] using hm, hr⟩
  · intro ⟨hr, hm⟩
    simp only [splitExc]
    rw [if_neg, if_pos]
    · simp only [Bool.and_eq_true, Bool.not_eq_true', List.isEmpty_iff]
      exact ⟨by simpa [List.isEmpty_iff] using hr, hm⟩
    · simp only [Bool.and_eq_true, Bool.not_eq_true', List.isEmpty_iff]
      intro ⟨h1, _⟩
      exact absurd h1 (by simpa [List.isEmpty_iff] using hm)
  · intro h
    subst h
    simp [splitExc, splitChildren, copyExc, Exc.setExceptions, Exc.setSources]

/-- C2 witness: the matched-side identity short-circuit evaluated on a
concrete all-matching group, and the zero-children clause on a concrete
empty group. -/
theorem split_identity_shortcircuit_witness :
    splitExc tyRuntimeError none
        (Exc.group "Many Errors" [rErr "a"] ["a"] freshMeta) =
      (some (Exc.group "Many Errors" [rErr "a"] ["a"] freshMeta), none) ∧
    splitExc tyRuntimeError none (Exc.group "m" [] [] freshMeta) =
      (some (Exc.group "m" [] [] { freshMeta with suppressContext := true }),
       some (Exc.group "m" [] [] { freshMeta with suppressContext := true })) :=
  ⟨(split_identity_shortcircuit tyRuntimeError none "Many Errors" [rErr "a"] ["a"]
      freshMeta).1 ⟨by decide, by decide⟩,
    (split_identity_shortcircuit tyRuntimeError none "m" [] [] freshMeta).2.2 rfl⟩

/-- C7, counterexample: the source group carries
`__suppress_context__ = False`, but the matched clone produced by `split`
carries `True` — `ExceptionGroup.__copy__` never copies
`__suppress_context__`, and its assignment to `__cause__` makes the host
set the flag on the copy. -/
theorem split_clone_suppress_cex :
    ((splitExc tyRuntimeError none
        (Exc.group "Many Errors" [rErr "r", vErr "v"] ["r", "v"] freshMeta)).1.map
      (fun g => (Exc.meta g).suppressContext)) = some true ∧
    (Exc.meta (Exc.group "Many Errors" [rErr "r", vErr "v"] ["r", "v"]
      freshMeta)).suppressContext = false := by
  decide

/-- C7 (amended): whenever `split` produces clones (both halves present),
each clone carries the source's `message`, `cause`, `context` and
`traceback` unchanged and holds the partitioned children/sources lists —
but its `suppressContext` flag is always `true` regardless of the source's,
because copying assigns `__cause__`, which makes the host set
`__suppress_context__`; so the flag is preserved only when the source's
flag was already set. -/
theorem split_clone_fields (t : Nat) (m : Option (Exc → Bool)) (message : String)
    (cs : List Exc) (ss : List String) (meta : ExcMeta) (mg rg : Exc)
    (h : splitExc t m (.group message cs ss meta) = (some mg, some rg)) :
    mg = .group message (splitChildren t m cs ss).1 (splitChildren t m cs ss).2.1
        ⟨meta.context, meta.cause, true, meta.traceback⟩ ∧
    rg = .group message (splitChildren t m cs ss).2.2.1 (splitChildren t m cs ss).2.2.2
        ⟨meta.context, meta.cause, true, meta.traceback⟩ := by
  simp only [splitExc] at h
  by_cases h1 : (!(splitChildren t m cs ss).1.isEmpty &&
      (splitChildren t m cs ss).2.2.1.isEmpty) = true
  · rw [if_pos h1] at h
    simp at h
  · rw [if_neg h1] at h
    by_cases h2 : (!(splitChildren t m cs ss).2.2.1.isEmpty &&
        (splitChildren t m cs ss).1.isEmpty) = true
    · rw [if_pos h2] at h
      simp at h
    · rw [if_neg h2] at h
      simp only [copyExc, Exc.setExceptions, Exc.setSources, Prod.mk.injEq,
        Option.some.injEq] at h
      exact ⟨h.1.symm, h.2.symm⟩

/-- C7 witness: the clone characterization evaluated on a concrete mixed
group. -/
theorem split_clone_fields_witness :
    Exc.group "Many Errors" [rErr "r"] ["r"] ⟨none, none, true, none⟩ =
      Exc.group "Many Errors"
        (splitChildren tyRuntimeError none [rErr "r", vErr "v"] ["r", "v"]).1
        (splitChildren tyRuntimeError none [rErr "r", vErr "v"] ["r", "v"]).2.1
        ⟨freshMeta.context, freshMeta.cause, true, freshMeta.traceback⟩ ∧
    Exc.group "Many Errors" [vErr "v"] ["v"] ⟨none, none, true, none⟩ =
      Exc.group "Many Errors"
        (splitChildren tyRuntimeError none [rErr "r", vErr "v"] ["r", "v"]).2.2.1
        (splitChildren tyRuntimeError none [rErr "r", vErr "v"] ["r", "v"]).2.2.2
        ⟨freshMeta.context, freshMeta.cause, true, freshMeta.traceback⟩ :=
  split_clone_fields tyRuntimeError none "Many Errors" [rErr "r", vErr "v"] ["r", "v"]
    freshMeta
    (Exc.group "Many Errors" [rErr "r"] ["r"] ⟨none, none, true, none⟩)
    (Exc.group "Many Errors" [vErr "v"] ["v"] ⟨none, none, true, none⟩)
    (by decide)

/-- C3: evaluation at the failing input.  A chain holding one handler for
`ValueError` that returns normally, guarding a block that raises a bare
`ValueError`: every part is handled, `re_raised` stays empty, and
`__exit__` falls off its end returning `None` — a falsy value — so the
`with` statement re-raises the original raw leaf error instead of
suppressing it (the repo's own test `test_handler_chain_when_raise_bare_exception`
expects this scope to complete without an error). -/
theorem chain_no_suppression_bug :
    withObserved (some (vErr "This is a value error which should not be raised."))
      (chainExit (handlersSet [] tyValueError none hNormal)
        (some (vErr "This is a value error which should not be raised."))) =
      some (vErr "This is a value error which should not be raised.") ∧
    (vErr "This is a value error which should not be raised.").isGroup = false := by
  decide

/-- C4: evaluation at the failing input.  A scoped catch for `RuntimeError`
whose handler returns normally, guarding a block that raises a bare
`RuntimeError`: `split` catches everything, `rest` is absent, and instead
of suppressing, `Catcher.__exit__` evaluates
`exceptiongroup_catch_exc.__context__` on `None`, so the host
`AttributeError` escapes the guard. -/
theorem catcher_rest_absent_bug :
    catcherExit (catchCM tyRuntimeError hNormal none) (some (rErr "boom")) =
      .raised noneContextError := by
  decide

/-- C5: for every Scoped Catch guard, a normal scope exit
(`__exit__(None, None, None)`) is not a no-op: `Catcher.__exit__` calls
`split(self._exc_type, None, ...)` unconditionally and the `isinstance`
guard's `TypeError` escapes, so the guard raises on every successful
block. -/
theorem catcher_normal_exit_bug (c : Catcher) :
    catcherExit c none = .raised splitTypeError := rfl

/-- C6: if the handler of a Scoped Catch guard raises exactly the object it
was given, the guard treats this as declining — `__exit__` returns `False`
and the `with` statement propagates the original error unchanged, with no
wrapping. -/
theorem catcher_identity_reraise (t : Nat) (m : Option (Exc → Bool)) (h : Handler)
    (e caughtE : Exc) (ro : Option Exc)
    (hsplit : splitExc t m e = (some caughtE, ro))
    (hraise : h caughtE = .raised caughtE) :
    withObserved (some e) (catcherExit (catchCM t h m) (some e)) = some e := by
  simp only [catcherExit, catchCM, split, hsplit, hraise, excEq_refl, if_true,
    withObserved]

/-- C6 witness: a bare re-raise handler on a concrete `RuntimeError`
propagates the original leaf unchanged. -/
theorem catcher_identity_reraise_witness :
    splitExc tyRuntimeError none (rErr "x") = (some (rErr "x"), none) ∧
    withObserved (some (rErr "x"))
      (catcherExit (catchCM tyRuntimeError hReRaise none) (some (rErr "x"))) =
      some (rErr "x") :=
  ⟨by decide,
    catcher_identity_reraise tyRuntimeError none hReRaise (rErr "x") (rErr "x") none
      (by decide) rfl⟩

/-- C8: re-registering a handler for an `errorType` already present in the
ordered registry replaces that entry's predicate and handler at the entry's
original position — same length, new triple at the same index, every other
index untouched (so nothing moves to the end).  Dispatch
(`HandlerChain.__exit__`) iterates `handlers.items()`, modelled by
`chainLoop` consuming the registry list front to back in exactly this
registration order. -/
theorem chain_register_in_place (hs : List ChainEntry) (i t : Nat)
    (m0 m : Option (Exc → Bool)) (f0 f : Handler)
    (hnodup : (hs.map (fun p => p.1)).Nodup)
    (hi : hs[i]? = some (t, m0, f0)) :
    (handlersSet hs t m f).length = hs.length ∧
    (handlersSet hs t m f)[i]? = some (t, m, f) ∧
    ∀ j, j ≠ i → (handlersSet hs t m f)[j]? = hs[j]? := by
  have hmem : (t, m0, f0) ∈ hs := List.getElem?_mem hi
  have hany : hs.any (fun p => p.1 == t) = true := by
    rw [List.any_eq_true]
    exact ⟨(t, m0, f0), hmem, by simp⟩
  have hset : handlersSet hs t m f =
      hs.map (fun p => if p.1 == t then (t, m, f) else p) := by
    simp only [handlersSet, hany, if_true]
  refine ⟨?_, ?_, ?_⟩
  · rw [hset, List.length_map]
  · rw [hset, List.getElem?_map, hi]
    simp
  · intro j hj
    rw [hset, List.getElem?_map]
    cases hq : hs[j]? with
    | none => rfl
    | some p =>
        have hne : p.1 ≠ t := by
          intro hp
          apply hj
          have hjlen : j < (hs.map (fun q => q.1)).length := by
            rw [List.length_map]
            exact (List.getElem?_eq_some.mp hq).1
          have h1 : (hs.map (fun q => q.1))[i]? = some t := by
            rw [List.getElem?_map, hi]
            rfl
          have h2 : (hs.map (fun q => q.1))[j]? = some t := by
            rw [List.getElem?_map, hq]
            simp [hp]
          exact List.getElem?_inj hjlen hnodup (h2.trans h1.symm)
        simp [hne]

/-- C8 witness: re-registering `RuntimeError` in a two-entry registry keeps
the registry length, installs the new handler at index 0 and leaves index 1
unchanged. -/
theorem chain_register_in_place_witness :
    (handlersSet [(tyRuntimeError, none, hNormal), (tyValueError, none, hNormal)]
        tyRuntimeError none hReRaise).length = 2 ∧
    (handlersSet [(tyRuntimeError, none, hNormal), (tyValueError, none, hNormal)]
        tyRuntimeError none hReRaise)[0]? = some (tyRuntimeError, none, hReRaise) ∧
    (handlersSet [(tyRuntimeError, none, hNormal), (tyValueError, none, hNormal)]
        tyRuntimeError none hReRaise)[1]? =
      [(tyRuntimeError, none, hNormal), (tyValueError, none, hNormal)][1]? :=
  ⟨(chain_register_in_place
      [(tyRuntimeError, none, hNormal), (tyValueError, none, hNormal)] 0 tyRuntimeError
      none none hNormal hReRaise (by decide) rfl).1,
   (chain_register_in_place
      [(tyRuntimeError, none, hNormal), (tyValueError, none, hNormal)] 0 tyRuntimeError
      none none hNormal hReRaise (by decide) rfl).2.1,
   (chain_register_in_place
      [(tyRuntimeError, none, hNormal), (tyValueError, none, hNormal)] 0 tyRuntimeError
      none none hNormal hReRaise (by decide) rfl).2.2 1 (by decide)⟩

end ExcGroup
